import Mathlib

/-!
# ACWhisk media upload pipeline — shallow embedding

This file embeds, in Lean, the upload-and-optimize pipeline of the ACWhisk
repository and proves properties of it:

* `src/components/DigitalPortfolio.tsx` — the `EnhancedImageUpload` component
  (`validateFile`, `compressImage`, `uploadFile`, `handleFileSelect`);
* `src/components/RobustImageUpload.tsx` — `handleFileUpload`;
* the edge-function server routes (`upload/:bucket`, `delete-file`).

JavaScript numbers are modelled as `ℚ` (exact rational arithmetic) where
fractional values occur (image dimensions, MB sizes, compression ratios) and
as `ℕ` for byte counts and timestamps.  Nondeterministic and external inputs
(image decode results, canvas encoding output, `Date.now()`, `Math.random()`
draws, object-store responses) are passed in explicitly as environment
records.  Side effects (object-store calls, React state snapshots, user
callbacks) are logged as explicit event lists.
-/

namespace ACWhisk

/-- A browser `File` as the upload code observes it: original name, declared
MIME type, and byte length. -/
structure JsFile where
  name : String
  type : String
  size : ℕ
deriving DecidableEq, Repr

/-- Split a character list at every occurrence of `c` (JS
`String.prototype.split` with a single-character separator, over the
underlying characters).  Always returns a nonempty list of fragments. -/
def splitOnChar (c : Char) : List Char → List (List Char)
  | [] => [[]]
  | x :: xs =>
    let r := splitOnChar c xs
    if x = c then [] :: r
    else
      match r with
      | [] => [[x]]
      | y :: ys => (x :: y) :: ys

/-- JS `s.split(c)` for a one-character separator. -/
def jsSplit (s : String) (c : Char) : List String :=
  (splitOnChar c s.data).map String.mk

/-- JS `name.split('.').pop()`: the last dot-separated component of a file
name (the whole name when it has no dot). -/
def lastExt (name : String) : String :=
  (jsSplit name '.').getLastD ""

/-! ## `EnhancedImageUpload` constants (DigitalPortfolio.tsx) -/

/-- Table `ALLOWED_FILE_TYPES` from DigitalPortfolio.tsx: MIME type ↦ extensions. -/
def ALLOWED_FILE_TYPES : List (String × List String) :=
  [("image/jpeg", [".jpg", ".jpeg"]),
   ("image/png", [".png"]),
   ("image/webp", [".webp"]),
   ("image/gif", [".gif"])]

/-- JS `Object.keys(ALLOWED_FILE_TYPES)`. -/
def allowedMimeTypes : List String := ALLOWED_FILE_TYPES.map Prod.fst

/-- Constant `MAX_FILE_SIZE_MB = 10`. -/
def MAX_FILE_SIZE_MB : ℕ := 10

/-- Constant `COMPRESSION_QUALITY = 0.8`. -/
def COMPRESSION_QUALITY : ℚ := 8 / 10

/-- JS `q.toFixed(1)` for a nonnegative rational: round `q` to one decimal
place (ties away from zero) and print with exactly one digit after the dot. -/
def toFixed1 (q : ℚ) : String :=
  let n : ℤ := ⌊q * 10 + 1 / 2⌋
  toString (n / 10) ++ "." ++ toString (n % 10)

/-- The invalid-type message built in `validateFile`
(`Object.values(ALLOWED_FILE_TYPES).flat().join(', ')`). -/
def invalidTypeMessage : String :=
  "Invalid file type. Please upload " ++
    String.intercalate ", " (ALLOWED_FILE_TYPES.map Prod.snd).flatten ++
    " files only."

/-- The too-large message built in `validateFile`.  `maxSize` is the integral
MB limit (every call site passes an integer; the default is
`MAX_FILE_SIZE_MB`), `size` the file's byte length. -/
def tooLargeMessage (maxSize : ℕ) (size : ℕ) : String :=
  "File size too large. Maximum allowed size is " ++ toString maxSize ++
    "MB. Your file is " ++ toFixed1 ((size : ℚ) / (1024 * 1024)) ++ "MB."

/-- Function `validateFile` from DigitalPortfolio.tsx: returns `some errorMessage` on
rejection, `none` on acceptance.  The type check runs before the size check. -/
def validateFile (maxSize : ℕ) (file : JsFile) : Option String :=
  if ¬ allowedMimeTypes.contains file.type then
    some invalidTypeMessage
  else
    let fileSizeMB : ℚ := (file.size : ℚ) / (1024 * 1024)
    if fileSizeMB > (maxSize : ℚ) then
      some (tooLargeMessage maxSize file.size)
    else
      none

/-! ## `compressImage` (DigitalPortfolio.tsx) -/

/-- Constant `maxDimension = 1920` inside `compressImage`. -/
def maxDimension : ℚ := 1920

/-- The dimension computation of `compressImage`: if either dimension exceeds
`maxDimension`, both are scaled by `min (maxDimension/w) (maxDimension/h)`. -/
def compressDims (w h : ℚ) : ℚ × ℚ :=
  if w > maxDimension ∨ h > maxDimension then
    let ratio := min (maxDimension / w) (maxDimension / h)
    (w * ratio, h * ratio)
  else
    (w, h)

/-- Record `ImageMetadata` from DigitalPortfolio.tsx. -/
structure ImageMetadata where
  originalSize : ℕ
  compressedSize : ℕ
  width : ℚ
  height : ℚ
  format : String
  compressionRatio : ℚ
deriving DecidableEq, Repr

/-- External inputs consumed by one `compressImage` call: whether the image
decodes (`img.onload` vs `img.onerror`), its native pixel dimensions, whether
`canvas.getContext('2d')` returns a context, and the byte length of the blob
`canvas.toBlob` produces (`none` models a `null` blob). -/
structure CompressEnv where
  decodeOk : Bool
  width : ℚ
  height : ℚ
  ctxOk : Bool
  blobSize : Option ℕ
deriving DecidableEq, Repr

/-- Function `compressImage` from DigitalPortfolio.tsx.  Rejections become `.error`
with the exact rejection messages of the source; success returns the
compressed file (same name and MIME type, new byte length) and metadata. -/
def compressImage (file : JsFile) (env : CompressEnv) :
    Except String (JsFile × ImageMetadata) :=
  if ¬ env.decodeOk then
    .error "Failed to load image"
  else
    let wh := compressDims env.width env.height
    if ¬ env.ctxOk then
      .error "Failed to get canvas context"
    else
      match env.blobSize with
      | none => .error "Failed to compress image"
      | some sz =>
        let compressedFile : JsFile :=
          { name := file.name, type := file.type, size := sz }
        .ok (compressedFile,
          { originalSize := file.size
            compressedSize := sz
            width := wh.1
            height := wh.2
            format := file.type
            compressionRatio := ((file.size : ℚ) - (sz : ℚ)) / (file.size : ℚ) * 100 })

/-! ## `uploadFile` (DigitalPortfolio.tsx, the pipeline orchestrator) -/

/-- Enum `UploadState.status` from DigitalPortfolio.tsx. -/
inductive Status
  | idle
  | uploading
  | success
  | error
deriving DecidableEq, Repr

/-- Observable effects of one `uploadFile` invocation, in order:
`compressImage` being entered, the object-store calls, every
`setUploadState` snapshot (status and progress), the compression toast, and
the `onUpload` / `onError` callbacks. -/
inductive Ev
  | compressCall
  | putObject (path : String)
  | getPublicUrl (path : String)
  | snapshot (st : Status) (progress : ℕ)
  | toastOptimized
  | onUpload (url : String)
  | onError (msg : String)
deriving DecidableEq, Repr

/-- How an `uploadFile` invocation terminates: the async function resolves
normally (`returned`) or rejects with an uncaught error (`threw`). -/
inductive Term
  | returned
  | threw (msg : String)
deriving DecidableEq, Repr

/-- External inputs of one `uploadFile` invocation: the `compressImage`
environment, the object-store upload outcome (`some msg` = error), `data.path`
returned by a successful upload, the public URL, `Date.now()`, and the
`Math.random().toString(36).substring(2)` draw. -/
structure UploadEnv where
  compress : CompressEnv
  uploadError : Option String
  uploadPath : String
  publicUrl : String
  now : ℕ
  rand : String
deriving DecidableEq, Repr

/-- JS `error.message || 'Failed to upload image'`. -/
def errMsgOr (m fallbackMsg : String) : String :=
  if m = "" then fallbackMsg else m

/-- The file name built in `uploadFile`:
`` `${Date.now()}-${Math.random().toString(36).substring(2)}.${fileExt}` ``
with `fileExt = file.name.split('.').pop()`. -/
def enhancedFileName (now : ℕ) (rand : String) (origName : String) : String :=
  toString now ++ "-" ++ rand ++ "." ++ lastExt origName

/-- JS `` const filePath = path ? `${path}/${fileName}` : fileName `` — the empty
string is falsy in JS. -/
def enhancedFilePath (pathArg : String) (fn : String) : String :=
  if pathArg = "" then fn else pathArg ++ "/" ++ fn

/-- Function `uploadFile` from DigitalPortfolio.tsx.  `session` is
`session?.user?.id`.  Returns the emitted event list and how the async
function terminates.  The auth check and `validateFile` run before the
`try` block, so their errors are thrown, not caught. -/
def uploadFile (session : Option String) (maxSize : ℕ) (pathArg : String)
    (file : JsFile) (env : UploadEnv) : List Ev × Term :=
  match session with
  | none => ([], .threw "User not authenticated")
  | some _ =>
    match validateFile maxSize file with
    | some msg => ([], .threw msg)
    | none =>
      let pre := [Ev.snapshot .uploading 10, Ev.snapshot .uploading 30,
                  Ev.compressCall]
      match compressImage file env.compress with
      | .error e =>
        (pre ++ [Ev.snapshot .error 30,
                 Ev.onError (errMsgOr e "Failed to upload image")], .returned)
      | .ok (_, meta) =>
        let toastEvs := if meta.compressionRatio > 10 then [Ev.toastOptimized] else []
        let fp := enhancedFilePath pathArg (enhancedFileName env.now env.rand file.name)
        let evs2 := pre ++ toastEvs ++
          [Ev.snapshot .uploading 50, Ev.snapshot .uploading 70, Ev.putObject fp]
        match env.uploadError with
        | some m =>
          (evs2 ++ [Ev.snapshot .error 70,
                    Ev.onError (errMsgOr m "Failed to upload image")], .returned)
        | none =>
          (evs2 ++ [Ev.snapshot .uploading 90, Ev.getPublicUrl env.uploadPath,
                    Ev.snapshot .success 100, Ev.onUpload env.publicUrl],
           .returned)

/-- The `(status, progress)` pairs of the `setUploadState` snapshots in an
event list, in emission order. -/
def snapshots (evs : List Ev) : List (Status × ℕ) :=
  evs.filterMap fun e =>
    match e with
    | .snapshot s p => some (s, p)
    | _ => none

/-- The progress values of the snapshots, in emission order. -/
def progresses (evs : List Ev) : List ℕ :=
  (snapshots evs).map Prod.snd

/-! ## `RobustImageUpload.tsx` (`handleFileUpload`) -/

/-- List `validTypes` from RobustImageUpload.tsx. -/
def robustValidTypes : List String :=
  ["image/jpeg", "image/jpg", "image/png", "image/gif", "image/webp"]

/-- The size-rejection message of RobustImageUpload.tsx:
`` `File size must be less than ${maxSizeMB}MB` ``. -/
def robustTooLargeMessage (maxSizeMB : ℕ) : String :=
  "File size must be less than " ++ toString maxSizeMB ++ "MB"

/-- The storage key built in `handleFileUpload`:
`` `${user.id}/${timestamp}-${randomId}.${fileExtension}` ``. -/
def robustFileName (uid : String) (now : ℕ) (rand : String) (origName : String) :
    String :=
  uid ++ "/" ++ toString now ++ "-" ++ rand ++ "." ++ lastExt origName

/-- External inputs of one `handleFileUpload` invocation: `Date.now()`, the
`Math.random().toString(36).substring(7)` draw, the store upload outcome,
and `urlData?.publicUrl` (`none` models a missing URL). -/
structure RobustEnv where
  now : ℕ
  rand : String
  uploadError : Option String
  publicUrl : Option String
deriving DecidableEq, Repr

/-- Observable effects of one `handleFileUpload` invocation. -/
inductive REv
  | putObject (bucket : String) (key : String)
  | getPublicUrl (bucket : String) (key : String)
  | progress (p : ℕ)
  | imageChanged (url : String)
deriving DecidableEq, Repr

/-- Function `handleFileUpload` from RobustImageUpload.tsx.  `user` is the auth
context's user id. The second component is the final `uploadError` state
(`none` = success). All rejection messages are those of the source. -/
def handleFileUpload (user : Option String) (maxSizeMB : ℕ) (bucket : String)
    (file : JsFile) (env : RobustEnv) : List REv × Option String :=
  match user with
  | none => ([], some "You must be logged in to upload images")
  | some uid =>
    if ¬ robustValidTypes.contains file.type then
      ([], some "Please upload a valid image file (JPEG, PNG, GIF, WebP)")
    else if file.size > maxSizeMB * 1024 * 1024 then
      ([], some (robustTooLargeMessage maxSizeMB))
    else
      let fileName := robustFileName uid env.now env.rand file.name
      let bucketName := "make-cfac176d-" ++ bucket
      let evs := [REv.progress 0, REv.progress 30, REv.progress 50,
                  REv.putObject bucketName fileName]
      match env.uploadError with
      | some m => (evs, some ("Upload failed: " ++ m))
      | none =>
        let evs2 := evs ++ [REv.progress 90, REv.getPublicUrl bucketName fileName]
        match env.publicUrl with
        | none => (evs2, some "Failed to get image URL")
        | some url =>
          (evs2 ++ [REv.progress 100, REv.imageChanged url], none)

/-! ## Server routes (edge function, `src/unnamed/part_004`) -/

/-- List `validImageTypes` of the `upload/:bucket` route. -/
def serverValidImageTypes : List String :=
  ["image/jpeg", "image/jpg", "image/png", "image/gif", "image/webp"]

/-- List `validVideoTypes` of the `upload/:bucket` route. -/
def serverValidVideoTypes : List String :=
  ["video/mp4", "video/webm", "video/ogg", "video/quicktime"]

/-- List `validBuckets` of the `upload/:bucket` route. -/
def validBuckets : List String :=
  ["recipes", "profiles", "forums", "resources", "chat-media"]

/-- External inputs of one `upload/:bucket` request: `Date.now()`, the
`crypto.randomUUID().substring(0, 8)` draw, the store upload outcome, and
`urlData?.publicUrl`. -/
structure ServerEnv where
  now : ℕ
  randomId : String
  uploadError : Option String
  publicUrl : Option String
deriving DecidableEq, Repr

/-- Store calls issued by one `upload/:bucket` request. -/
inductive SEv
  | putObject (bucket : String) (key : String)
  | getPublicUrl (bucket : String) (key : String)
deriving DecidableEq, Repr

/-- The storage key built by the `upload/:bucket` route:
`` `${user.id}/${isVideo ? "videos" : "images"}/${timestamp}-${randomId}.${optimizedExtension}` ``,
where the extension is forced to `webp` for `image/webp` and is otherwise the
original name's extension. -/
def serverFileName (uid : String) (isVideo : Bool) (now : ℕ) (randomId : String)
    (file : JsFile) : String :=
  uid ++ "/" ++ (if isVideo then "videos" else "images") ++ "/" ++
    toString now ++ "-" ++ randomId ++ "." ++
    (if file.type = "image/webp" then "webp" else lastExt file.name)

/-- The `POST upload/:bucket` route.  `user` is `getUserFromToken`'s user,
`file` the form-data file (`none` = absent).  Returns the store calls issued
and the HTTP status of the response. -/
def uploadRoute (user : Option String) (bucket : String) (file : Option JsFile)
    (env : ServerEnv) : List SEv × ℕ :=
  match user with
  | none => ([], 401)
  | some uid =>
    if ¬ validBuckets.contains bucket then ([], 400)
    else
      match file with
      | none => ([], 400)
      | some f =>
        if ¬ (serverValidImageTypes ++ serverValidVideoTypes).contains f.type then
          ([], 400)
        else
          let isVideo := serverValidVideoTypes.contains f.type
          let maxSize := if isVideo then 50 * 1024 * 1024 else 5 * 1024 * 1024
          if f.size > maxSize then ([], 400)
          else
            let fileName := serverFileName uid isVideo env.now env.randomId f
            let bucketName := "make-cfac176d-" ++ bucket
            match env.uploadError with
            | some _ => ([SEv.putObject bucketName fileName], 500)
            | none =>
              let evs := [SEv.putObject bucketName fileName,
                          SEv.getPublicUrl bucketName fileName]
              match env.publicUrl with
              | none => (evs, 500)
              | some _ => (evs, 200)

/-- JS `s.startsWith(p)`, over the underlying characters. -/
def jsStartsWith (s p : String) : Bool :=
  p.data.isPrefixOf s.data

/-- The `DELETE delete-file` route.  `fileName` and `bucket` come from the
request body (the empty string is falsy in JS, matching `!fileName`).
`removeFails` models the store's `remove` outcome.  The first component is
`some key` when `remove([fileName])` was called with `key`; the second is the
HTTP status. -/
def deleteFileRoute (user : Option String) (fileName bucket : String)
    (removeFails : Bool) : Option String × ℕ :=
  match user with
  | none => (none, 401)
  | some uid =>
    if fileName = "" ∨ bucket = "" then (none, 400)
    else if ¬ jsStartsWith fileName (uid ++ "/") then (none, 403)
    else (some fileName, if removeFails then 500 else 200)

/-! ## Derived observations and spec-side definitions -/

/-- Whether `t` occurs as a contiguous run inside the character list. -/
def listHasInfix (t : List Char) : List Char → Bool
  | [] => t.isEmpty
  | x :: xs => t.isPrefixOf (x :: xs) || listHasInfix t xs

/-- Boolean substring test: `t` occurs inside `s`. -/
def strContains (s t : String) : Bool :=
  listHasInfix t.data s.data

/-- Propositional substring statement: `t` occurs inside `s`. -/
def strContainsP (s t : String) : Prop :=
  ∃ a b : List Char, s.data = a ++ t.data ++ b

/-- The keys of the `putObject` calls in a `RobustImageUpload` event list. -/
def putObjectKeys (evs : List REv) : List String :=
  evs.filterMap fun e =>
    match e with
    | .putObject _ k => some k
    | _ => none

/-- The last `setUploadState` snapshot of an `uploadFile` event list. -/
def lastSnapshot (evs : List Ev) : Option (Status × ℕ) :=
  (snapshots evs).reverse.head?

/-- The snapshot immediately before the last one. -/
def prevSnapshot (evs : List Ev) : Option (Status × ℕ) :=
  (snapshots evs).reverse.tail.head?

/-- The `compressionRatio` carried by a `compressImage` result, when it
succeeded. -/
def compressionRatioOf (r : Except String (JsFile × ImageMetadata)) : Option ℚ :=
  r.toOption.map fun p => p.2.compressionRatio

/-- The extensions belonging to a MIME type, per the repository's own
`ALLOWED_FILE_TYPES` table. -/
def mimeExtensions (mime : String) : List String :=
  ((ALLOWED_FILE_TYPES.find? fun p => p.1 == mime).map Prod.snd).getD []

/-- Modelled from the spec: "`extension` reflects the final (possibly
re-encoded) MIME type, not necessarily the original file's extension" — the
key's trailing extension (its last dot-segment) must be one of the extensions
of the final MIME type of the uploaded bytes. -/
def specKeyExtensionOk (finalMime key : String) : Bool :=
  (mimeExtensions finalMime).contains ("." ++ lastExt key)

/-! # Theorems -/

theorem strAppend_data (a b : String) : (a ++ b).data = a.data ++ b.data := by
  cases a; cases b; rfl

theorem str_ext (a b : String) (h : a.data = b.data) : a = b := by
  cases a; cases b; exact congrArg String.mk h

theorem min_div_eq_div_max (m w h : ℚ) (hm : 0 ≤ m) (hw : 0 < w) (hh : 0 < h) :
    min (m / w) (m / h) = m / max w h := by
  rcases le_total w h with hle | hle
  · rw [max_eq_right hle, min_eq_right]
    exact div_le_div_of_nonneg_left hm hw hle
  · rw [max_eq_left hle, min_eq_left]
    exact div_le_div_of_nonneg_left hm hh hle

/-- C1: a file whose MIME type is outside `ALLOWED_FILE_TYPES`, or whose size
exceeds the limit, makes `uploadFile` terminate in the corresponding failure
(the thrown invalid-type / too-large validation error) while emitting no
events at all — in particular `compressImage` is never entered and no
`putObject` or `getPublicUrl` call is issued. -/
theorem uploadFile_gate (u : String) (maxSize : ℕ) (pathArg : String)
    (file : JsFile) (env : UploadEnv) :
    (allowedMimeTypes.contains file.type = false →
      uploadFile (some u) maxSize pathArg file env = ([], .threw invalidTypeMessage)) ∧
    (allowedMimeTypes.contains file.type = true →
      (file.size : ℚ) / (1024 * 1024) > (maxSize : ℚ) →
      uploadFile (some u) maxSize pathArg file env
        = ([], .threw (tooLargeMessage maxSize file.size))) := by
  constructor
  · intro h
    have h' : file.type ∉ allowedMimeTypes := by simpa using h
    simp [uploadFile, validateFile, h']
  · intro h hs
    have h' : file.type ∈ allowedMimeTypes := by simpa using h
    simp [uploadFile, validateFile, h', hs]

theorem uploadFile_gate_witness :
    (allowedMimeTypes.contains "application/pdf" = false ∧
      uploadFile (some "u") 10 ""
        { name := "doc.pdf", type := "application/pdf", size := 100 }
        { compress := { decodeOk := true, width := 10, height := 10,
                        ctxOk := true, blobSize := some 10 },
          uploadError := none, uploadPath := "p", publicUrl := "q",
          now := 0, rand := "r" }
        = ([], .threw invalidTypeMessage)) ∧
    (uploadFile (some "u") 10 ""
        { name := "big.png", type := "image/png", size := 11 * 1024 * 1024 }
        { compress := { decodeOk := true, width := 10, height := 10,
                        ctxOk := true, blobSize := some 10 },
          uploadError := none, uploadPath := "p", publicUrl := "q",
          now := 0, rand := "r" }
        = ([], .threw (tooLargeMessage 10 (11 * 1024 * 1024)))) := by
  refine ⟨⟨by decide, (uploadFile_gate "u" 10 "" _ _).1 (by decide)⟩,
    (uploadFile_gate "u" 10 "" _ _).2 (by decide) (by norm_num)⟩

/-- C2: when either native dimension exceeds `maxDimension` (1920), the
computed output dimensions are both scaled by the same ratio, the larger one
lands exactly on `maxDimension`, and the aspect ratio is preserved
(`w' * h = w * h'`); for every input the output dimensions never exceed
`maxDimension`. -/
theorem compressDims_caps (w h : ℚ) (hw : 0 < w) (hh : 0 < h) :
    ((w > maxDimension ∨ h > maxDimension) →
      max (compressDims w h).1 (compressDims w h).2 = maxDimension ∧
      (compressDims w h).1 * h = w * (compressDims w h).2) ∧
    (compressDims w h).1 ≤ maxDimension ∧
    (compressDims w h).2 ≤ maxDimension := by
  have hm : (0 : ℚ) ≤ maxDimension := by norm_num [maxDimension]
  unfold compressDims
  by_cases hc : w > maxDimension ∨ h > maxDimension
  · rw [if_pos hc]
    dsimp only
    have hmx : 0 < max w h := lt_of_lt_of_le hw (le_max_left w h)
    have hr : min (maxDimension / w) (maxDimension / h) = maxDimension / max w h :=
      min_div_eq_div_max maxDimension w h hm hw hh
    have hrpos : 0 ≤ min (maxDimension / w) (maxDimension / h) := by
      rw [hr]; positivity
    refine ⟨fun _ => ⟨?_, by ring⟩, ?_, ?_⟩
    · rw [← max_mul_of_nonneg w h hrpos, hr, mul_comm,
        div_mul_cancel₀ maxDimension (ne_of_gt hmx)]
    · calc w * min (maxDimension / w) (maxDimension / h)
          ≤ w * (maxDimension / w) :=
            mul_le_mul_of_nonneg_left (min_le_left _ _) hw.le
        _ = maxDimension := by field_simp
    · calc h * min (maxDimension / w) (maxDimension / h)
          ≤ h * (maxDimension / h) :=
            mul_le_mul_of_nonneg_left (min_le_right _ _) hh.le
        _ = maxDimension := by field_simp
  · rw [if_neg hc]
    push_neg at hc
    exact ⟨fun h' => absurd h' (by push_neg; exact hc), hc.1, hc.2⟩

/-- C3: within one `uploadFile` invocation the emitted `progressPercent`
values are non-decreasing; the last snapshot, when it is the `success`
terminal state, carries exactly 100; and the terminal `error` snapshot
carries exactly the progress of the snapshot before it (the failure holds
the last value rather than advancing or resetting it). -/
theorem progress_monotone (session : Option String) (maxSize : ℕ)
    (pathArg : String) (file : JsFile) (env : UploadEnv) :
    List.Chain' (· ≤ ·) (progresses (uploadFile session maxSize pathArg file env).1) ∧
    (∀ p, lastSnapshot (uploadFile session maxSize pathArg file env).1 =
        some (Status.success, p) → p = 100) ∧
    (∀ p, lastSnapshot (uploadFile session maxSize pathArg file env).1 =
        some (Status.error, p) →
      ∃ s, prevSnapshot (uploadFile session maxSize pathArg file env).1 = some (s, p)) := by
  cases session with
  | none => simp [uploadFile, lastSnapshot, prevSnapshot, snapshots, progresses]
  | some u =>
    cases hv : validateFile maxSize file with
    | some msg =>
      simp [uploadFile, hv, lastSnapshot, prevSnapshot, snapshots, progresses]
    | none =>
      cases hcp : compressImage file env.compress with
      | error e =>
        simp [uploadFile, hv, hcp, lastSnapshot, prevSnapshot, snapshots, progresses]
      | ok pr =>
        obtain ⟨cf, meta⟩ := pr
        by_cases ht : (10 : ℚ) < meta.compressionRatio <;>
          cases hu : env.uploadError <;>
            simp [uploadFile, hv, hcp, hu, ht, lastSnapshot, prevSnapshot,
              snapshots, progresses]

theorem progress_monotone_witness :
    List.Chain' (· ≤ ·)
      (progresses (uploadFile (some "u") 10 ""
        { name := "a.jpg", type := "image/jpeg", size := 100 }
        { compress := { decodeOk := true, width := 10, height := 10,
                        ctxOk := true, blobSize := some 50 },
          uploadError := none, uploadPath := "p", publicUrl := "q",
          now := 0, rand := "r" }).1) ∧
    (100 : ℕ) = 100 := by
  have h := progress_monotone (some "u") 10 ""
    { name := "a.jpg", type := "image/jpeg", size := 100 }
    { compress := { decodeOk := true, width := 10, height := 10,
                    ctxOk := true, blobSize := some 50 },
      uploadError := none, uploadPath := "p", publicUrl := "q",
      now := 0, rand := "r" }
  refine ⟨h.1, h.2.1 100 ?_⟩
  simp [uploadFile, validateFile, compressImage, compressDims, maxDimension,
    lastSnapshot, snapshots, allowedMimeTypes, ALLOWED_FILE_TYPES]
  norm_num

theorem compressDims_caps_witness :
    max (compressDims 4000 3000).1 (compressDims 4000 3000).2 = maxDimension ∧
    (compressDims 4000 3000).1 * 3000 = 4000 * (compressDims 4000 3000).2 ∧
    (compressDims 4000 3000).1 ≤ maxDimension := by
  have h := compressDims_caps 4000 3000 (by norm_num) (by norm_num)
  have h1 := h.1 (by norm_num [maxDimension])
  exact ⟨h1.1, h1.2, h.2.1⟩

/-- C4 counterexample: `RobustImageUpload` uploads the original bytes with
`contentType: file.type`, so the final MIME type of the stored object is the
declared one (`image/jpeg` here), yet the storage key's extension is taken
from the original file NAME (`photo.png` → `.png`).  The produced key
`u/5-abc.png` therefore does not satisfy the requirement that the extension
reflect the final MIME type. -/
theorem key_format_counterexample :
    putObjectKeys (handleFileUpload (some "u") 10 "recipes"
        { name := "photo.png", type := "image/jpeg", size := 10 }
        { now := 5, rand := "abc", uploadError := none, publicUrl := some "x" }).1
      = ["u/5-abc.png"] ∧
    specKeyExtensionOk "image/jpeg" "u/5-abc.png" = false := by
  decide

/-- C4 amended: every storage key written by the upload code has the shape
`{prefix}/{timestamp}-{randomSuffix}.{extension}` where the extension comes
from the ORIGINAL file name's last dot-segment (the server route forces
`webp` for `image/webp` files and inserts an `images`/`videos` segment; the
`EnhancedImageUpload` component uses its `path` prop — possibly empty — as
the prefix instead of the owner id). -/
theorem key_format_amended :
    (∀ uid maxSizeMB bucket file env b k,
      REv.putObject b k ∈ (handleFileUpload (some uid) maxSizeMB bucket file env).1 →
      k = robustFileName uid env.now env.rand file.name) ∧
    (∀ uid bucket f env b k,
      SEv.putObject b k ∈ (uploadRoute (some uid) bucket (some f) env).1 →
      k = serverFileName uid (serverValidVideoTypes.contains f.type)
            env.now env.randomId f) ∧
    (∀ u maxSize pathArg file env p,
      Ev.putObject p ∈ (uploadFile (some u) maxSize pathArg file env).1 →
      p = enhancedFilePath pathArg (enhancedFileName env.now env.rand file.name)) ∧
    (∀ uid now rand origName,
      robustFileName uid now rand origName =
        uid ++ ("/" ++ (toString now ++ ("-" ++ (rand ++ ("." ++ lastExt origName)))))) := by
  refine ⟨?_, ?_, ?_, ?_⟩
  · intro uid maxSizeMB bucket file env b k h
    simp only [handleFileUpload] at h
    repeat' split at h
    all_goals simp_all
  · intro uid bucket f env b k h
    simp only [uploadRoute] at h
    repeat' split at h
    all_goals simp_all
  · intro u maxSize pathArg file env p h
    simp only [uploadFile] at h
    repeat' split at h
    all_goals simp_all
  · intro uid now rand origName
    apply str_ext
    simp [robustFileName, strAppend_data, List.append_assoc]

theorem key_format_amended_witness :
    ("u/5-abc.png" : String) = robustFileName "u" 5 "abc" "photo.png" :=
  key_format_amended.1 "u" 10 "recipes"
    { name := "photo.png", type := "image/jpeg", size := 10 }
    { now := 5, rand := "abc", uploadError := none, publicUrl := some "x" }
    "make-cfac176d-recipes" "u/5-abc.png" (by decide)

/-- C5 counterexample: two DISTINCT invocations (different files, different
store responses) by the same owner in the same millisecond whose
`Math.random()` draws coincide produce the SAME storage key, so the
timestamp-plus-random-suffix scheme does not guarantee distinct keys. -/
theorem key_unique_counterexample :
    putObjectKeys (handleFileUpload (some "u") 10 "recipes"
        { name := "a.png", type := "image/png", size := 1 }
        { now := 5, rand := "abc", uploadError := none, publicUrl := some "x" }).1
      = ["u/5-abc.png"] ∧
    putObjectKeys (handleFileUpload (some "u") 10 "recipes"
        { name := "b.png", type := "image/png", size := 2 }
        { now := 5, rand := "abc", uploadError := none, publicUrl := some "y" }).1
      = ["u/5-abc.png"] := by
  decide

theorem splitOnChar_ne_nil (c : Char) (l : List Char) : splitOnChar c l ≠ [] := by
  cases l with
  | nil => simp [splitOnChar]
  | cons x xs =>
    unfold splitOnChar
    by_cases hx : x = c
    · simp [hx]
    · simp only [if_neg hx]
      cases hsp : splitOnChar c xs <;> simp

theorem splitOnChar_no_sep (c : Char) : ∀ (l f : List Char),
    f ∈ splitOnChar c l → c ∉ f := by
  intro l
  induction l with
  | nil =>
    intro f hf
    simp [splitOnChar] at hf
    subst hf
    simp
  | cons x xs ih =>
    intro f hf
    unfold splitOnChar at hf
    by_cases hx : x = c
    · simp only [if_pos hx] at hf
      rcases List.mem_cons.mp hf with h | h
      · subst h; simp
      · exact ih f h
    · simp only [if_neg hx] at hf
      cases hsp : splitOnChar c xs with
      | nil => exact absurd hsp (splitOnChar_ne_nil c xs)
      | cons y ys =>
        rw [hsp] at hf
        rcases List.mem_cons.mp hf with h | h
        · subst h
          intro hc
          rcases List.mem_cons.mp hc with h1 | h1
          · exact hx h1.symm
          · have hy : y ∈ splitOnChar c xs := by
              rw [hsp]; exact List.mem_cons_self y ys
            exact ih y hy h1
        · have hf' : f ∈ splitOnChar c xs := by
            rw [hsp]; exact List.mem_cons_of_mem y h
          exact ih f hf'

theorem getLastD_mem {α : Type} : ∀ (l : List α) (d : α), l ≠ [] → l.getLastD d ∈ l := by
  intro l
  induction l with
  | nil => intro d h; exact absurd rfl h
  | cons x xs ih =>
    intro d _
    cases xs with
    | nil =>
      rw [List.getLastD_cons]
      simp [List.getLastD]
    | cons y ys =>
      rw [List.getLastD_cons]
      exact List.mem_cons_of_mem x (ih x (by simp))

theorem getLastD_map_mk : ∀ (l : List (List Char)) (d : List Char),
    ((l.map String.mk).getLastD (String.mk d)).data = l.getLastD d := by
  intro l
  induction l with
  | nil => intro d; rfl
  | cons x xs ih =>
    intro d
    rw [List.map_cons, List.getLastD_cons, List.getLastD_cons, ih]

theorem lastExt_no_dot (name : String) : '.' ∉ (lastExt name).data := by
  have hdata : (lastExt name).data = (splitOnChar '.' name.data).getLastD [] := by
    show (((splitOnChar '.' name.data).map String.mk).getLastD (String.mk [])).data
        = (splitOnChar '.' name.data).getLastD []
    exact getLastD_map_mk _ []
  rw [hdata]
  exact splitOnChar_no_sep '.' name.data _
    (getLastD_mem _ _ (splitOnChar_ne_nil '.' name.data))

theorem append_cons_inj (c : Char) : ∀ (a1 a2 b1 b2 : List Char),
    c ∉ a1 → c ∉ a2 → a1 ++ c :: b1 = a2 ++ c :: b2 → a1 = a2 ∧ b1 = b2 := by
  intro a1
  induction a1 with
  | nil =>
    intro a2 b1 b2 _ h2 heq
    cases a2 with
    | nil => simpa using heq
    | cons y ys =>
      simp only [List.nil_append, List.cons_append, List.cons.injEq] at heq
      obtain ⟨hcy, -⟩ := heq
      subst hcy
      exact absurd (List.mem_cons_self c ys) h2
  | cons x xs ih =>
    intro a2 b1 b2 h1 h2 heq
    cases a2 with
    | nil =>
      simp only [List.cons_append, List.nil_append, List.cons.injEq] at heq
      obtain ⟨hxc, -⟩ := heq
      rw [hxc] at h1
      exact absurd (List.mem_cons_self c xs) h1
    | cons y ys =>
      simp only [List.cons_append, List.cons.injEq] at heq
      obtain ⟨hxy, htail⟩ := heq
      have h1' : c ∉ xs := fun hm => h1 (List.mem_cons_of_mem _ hm)
      have h2' : c ∉ ys := fun hm => h2 (List.mem_cons_of_mem _ hm)
      obtain ⟨he, hb⟩ := ih ys b1 b2 h1' h2' htail
      exact ⟨by rw [hxy, he], hb⟩

theorem rand_ext_inj (r1 r2 e1 e2 : List Char) (h1 : '.' ∉ e1) (h2 : '.' ∉ e2)
    (heq : r1 ++ '.' :: e1 = r2 ++ '.' :: e2) : r1 = r2 := by
  have hrev := congrArg List.reverse heq
  simp only [List.reverse_append, List.reverse_cons, List.append_assoc,
    List.singleton_append] at hrev
  have h1' : '.' ∉ e1.reverse := by simpa using h1
  have h2' : '.' ∉ e2.reverse := by simpa using h2
  obtain ⟨-, hr⟩ := append_cons_inj '.' e1.reverse e2.reverse
    r1.reverse r2.reverse h1' h2' hrev
  exact List.reverse_injective hr

/-- C5 amended: two invocations in the same millisecond for the same owner
produce different storage keys whenever their random suffixes differ — for
the `{uid}/{ts}-{rand}.{ext}` scheme of RobustImageUpload and for the
`{ts}-{rand}.{ext}` scheme of DigitalPortfolio's `uploadFile` (including the
full `path`-prefixed object path), with any original file names; with equal
random draws the keys can collide, so uniqueness is only probabilistic. -/
theorem key_unique_amended :
    (∀ (uid : String) (t : ℕ) (r1 r2 n1 n2 : String), r1 ≠ r2 →
      robustFileName uid t r1 n1 ≠ robustFileName uid t r2 n2) ∧
    (∀ (t : ℕ) (r1 r2 n1 n2 : String), r1 ≠ r2 →
      enhancedFileName t r1 n1 ≠ enhancedFileName t r2 n2) ∧
    (∀ (pathArg k1 k2 : String), k1 ≠ k2 →
      enhancedFilePath pathArg k1 ≠ enhancedFilePath pathArg k2) := by
  refine ⟨?_, ?_, ?_⟩
  · intro uid t r1 r2 n1 n2 hr hk
    have hd := congrArg String.data hk
    simp only [robustFileName, strAppend_data, List.append_assoc] at hd
    have hd1 := List.append_cancel_left hd
    have hd2 := List.append_cancel_left hd1
    have hd3 := List.append_cancel_left hd2
    have hd4 := List.append_cancel_left hd3
    exact hr (str_ext r1 r2 (rand_ext_inj r1.data r2.data
      (lastExt n1).data (lastExt n2).data
      (lastExt_no_dot n1) (lastExt_no_dot n2) hd4))
  · intro t r1 r2 n1 n2 hr hk
    have hd := congrArg String.data hk
    simp only [enhancedFileName, strAppend_data, List.append_assoc] at hd
    have hd1 := List.append_cancel_left hd
    have hd2 := List.append_cancel_left hd1
    exact hr (str_ext r1 r2 (rand_ext_inj r1.data r2.data
      (lastExt n1).data (lastExt n2).data
      (lastExt_no_dot n1) (lastExt_no_dot n2) hd2))
  · intro pathArg k1 k2 hk h
    by_cases hp : pathArg = ""
    · simp only [enhancedFilePath, if_pos hp] at h
      exact hk h
    · simp only [enhancedFilePath, if_neg hp] at h
      have hd := congrArg String.data h
      simp only [strAppend_data, List.append_assoc] at hd
      have hd1 := List.append_cancel_left hd
      have hd2 := List.append_cancel_left hd1
      exact hk (str_ext k1 k2 hd2)

theorem key_unique_amended_witness :
    ("abc" : String) ≠ "abd" ∧
    robustFileName "u" 5 "abc" "a.png" ≠ robustFileName "u" 5 "abd" "b.jpg" ∧
    enhancedFileName 5 "abc" "a.png" ≠ enhancedFileName 5 "abd" "b.jpg" :=
  ⟨by decide,
    key_unique_amended.1 "u" 5 "abc" "abd" "a.png" "b.jpg" (by decide),
    key_unique_amended.2.1 5 "abc" "abd" "a.png" "b.jpg" (by decide)⟩

theorem strContainsP_intro (a t b : String) : strContainsP (a ++ t ++ b) t :=
  ⟨a.data, b.data, by simp [strContainsP, strAppend_data, List.append_assoc]⟩

/-- C6 counterexample: for an 11MB PNG against a 10MB limit,
`RobustImageUpload.handleFileUpload` rejects with a message that cites the
limit but NOT the actual file size (no "11.0" anywhere in it). -/
theorem size_message_counterexample :
    handleFileUpload (some "u") 10 "recipes"
        { name := "big.png", type := "image/png", size := 11 * 1024 * 1024 }
        { now := 5, rand := "abc", uploadError := none, publicUrl := some "x" }
      = ([], some (robustTooLargeMessage 10)) ∧
    strContains (robustTooLargeMessage 10) "10MB" = true ∧
    strContains (robustTooLargeMessage 10) "11.0" = false := by
  decide

/-- C6 amended: the `EnhancedImageUpload` validator's too-large message
includes BOTH the configured limit ("10MB") and the actual size in MB with
one decimal ("11.0MB"); the `RobustImageUpload` message includes only the
limit. -/
theorem size_message_amended (maxSize : ℕ) (file : JsFile)
    (ht : allowedMimeTypes.contains file.type = true)
    (hs : (file.size : ℚ) / (1024 * 1024) > (maxSize : ℚ)) :
    validateFile maxSize file = some (tooLargeMessage maxSize file.size) ∧
    strContainsP (tooLargeMessage maxSize file.size) (toString maxSize ++ "MB") ∧
    strContainsP (tooLargeMessage maxSize file.size)
      (toFixed1 ((file.size : ℚ) / (1024 * 1024)) ++ "MB") ∧
    strContainsP (robustTooLargeMessage maxSize) (toString maxSize ++ "MB") := by
  have h' : file.type ∈ allowedMimeTypes := by simpa using ht
  refine ⟨by simp [validateFile, h', hs], ?_, ?_, ?_⟩
  · have hmsg : tooLargeMessage maxSize file.size
        = "File size too large. Maximum allowed size is " ++
            (toString maxSize ++ "MB") ++
            (". Your file is " ++ toFixed1 ((file.size : ℚ) / (1024 * 1024)) ++ "MB.") := by
      apply str_ext
      have hsplit : ("MB. Your file is " : String).data
          = ("MB" : String).data ++ (". Your file is " : String).data := rfl
      simp [tooLargeMessage, strAppend_data, List.append_assoc, hsplit]
    rw [hmsg]
    exact strContainsP_intro _ _ _
  · have hmsg : tooLargeMessage maxSize file.size
        = ("File size too large. Maximum allowed size is " ++ toString maxSize ++
            "MB. Your file is ") ++
            (toFixed1 ((file.size : ℚ) / (1024 * 1024)) ++ "MB") ++ "." := by
      apply str_ext
      have hsplit : ("MB." : String).data
          = ("MB" : String).data ++ ("." : String).data := rfl
      simp [tooLargeMessage, strAppend_data, List.append_assoc, hsplit]
    rw [hmsg]
    exact strContainsP_intro _ _ _
  · have hmsg : robustTooLargeMessage maxSize
        = "File size must be less than " ++ (toString maxSize ++ "MB") ++ "" := by
      apply str_ext
      simp [robustTooLargeMessage, strAppend_data, List.append_assoc]
    rw [hmsg]
    exact strContainsP_intro _ _ _

theorem size_message_amended_witness :
    validateFile 10 { name := "big.png", type := "image/png", size := 11 * 1024 * 1024 }
      = some (tooLargeMessage 10 (11 * 1024 * 1024)) ∧
    strContainsP (tooLargeMessage 10 (11 * 1024 * 1024)) (toString 10 ++ "MB") ∧
    strContainsP (tooLargeMessage 10 (11 * 1024 * 1024))
      (toFixed1 (((11 * 1024 * 1024 : ℕ) : ℚ) / (1024 * 1024)) ++ "MB") ∧
    strContainsP (robustTooLargeMessage 10) (toString 10 ++ "MB") :=
  size_message_amended 10
    { name := "big.png", type := "image/png", size := 11 * 1024 * 1024 }
    (by decide) (by norm_num)

/-- C7 counterexample: `compressImage` stores the compression ratio as a
PERCENTAGE — `(original - final) / original * 100` — so for a 100-byte file
compressed to 50 bytes it returns 50, not the fraction
`(100 - 50) / 100 = 1/2` the claim states. -/
theorem ratio_counterexample :
    compressionRatioOf (compressImage
        { name := "a.jpg", type := "image/jpeg", size := 100 }
        { decodeOk := true, width := 10, height := 10,
          ctxOk := true, blobSize := some 50 })
      = some 50 ∧
    ((100 : ℚ) - 50) / 100 = 1 / 2 ∧ (50 : ℚ) ≠ 1 / 2 := by
  refine ⟨?_, by norm_num, by norm_num⟩
  simp [compressImage, compressionRatioOf, compressDims, maxDimension,
    Except.toOption]
  norm_num

/-- C7 amended: the returned `compressionRatio` equals
`(originalBytes - finalBytes) / originalBytes * 100` (a percentage, which may
be zero or negative), and `uploadFile` shows the optimization toast exactly
when that percentage exceeds 10 (i.e. a 10% reduction). -/
theorem ratio_amended :
    (∀ (file : JsFile) (cenv : CompressEnv) (sz : ℕ),
      cenv.decodeOk = true → cenv.ctxOk = true →
      cenv.blobSize = some sz →
      compressionRatioOf (compressImage file cenv)
        = some (((file.size : ℚ) - (sz : ℚ)) / (file.size : ℚ) * 100)) ∧
    (∀ u maxSize pathArg file env q,
      validateFile maxSize file = none →
      compressionRatioOf (compressImage file env.compress) = some q →
      (Ev.toastOptimized ∈ (uploadFile (some u) maxSize pathArg file env).1 ↔ 10 < q)) := by
  constructor
  · intro file cenv sz h1 h2 h3
    simp [compressImage, compressionRatioOf, h1, h2, h3, Except.toOption]
  · intro u maxSize pathArg file env q hv hq
    cases hcp : compressImage file env.compress with
    | error e => simp [compressionRatioOf, hcp, Except.toOption] at hq
    | ok pr =>
      obtain ⟨cf, meta⟩ := pr
      rw [hcp] at hq
      simp only [compressionRatioOf, Except.toOption, Option.map,
        Option.some.injEq] at hq
      subst hq
      by_cases htoast : (10 : ℚ) < meta.compressionRatio <;>
        cases hu : env.uploadError <;>
          simp [uploadFile, hv, hcp, hu, htoast]

theorem ratio_amended_witness :
    compressionRatioOf (compressImage
        { name := "b.jpg", type := "image/jpeg", size := 200 }
        { decodeOk := true, width := 10, height := 10,
          ctxOk := true, blobSize := some 80 })
      = some (((200 : ℚ) - 80) / 200 * 100) ∧
    (Ev.toastOptimized ∈ (uploadFile (some "u") 10 ""
        { name := "b.jpg", type := "image/jpeg", size := 200 }
        { compress := { decodeOk := true, width := 10, height := 10,
                        ctxOk := true, blobSize := some 80 },
          uploadError := none, uploadPath := "p", publicUrl := "q",
          now := 0, rand := "r" }).1 ↔
      (10 : ℚ) < ((200 : ℚ) - 80) / 200 * 100) := by
  constructor
  · exact ratio_amended.1
      { name := "b.jpg", type := "image/jpeg", size := 200 }
      { decodeOk := true, width := 10, height := 10,
        ctxOk := true, blobSize := some 80 } 80 rfl rfl rfl
  · refine ratio_amended.2 "u" 10 ""
      { name := "b.jpg", type := "image/jpeg", size := 200 }
      { compress := { decodeOk := true, width := 10, height := 10,
                      ctxOk := true, blobSize := some 80 },
        uploadError := none, uploadPath := "p", publicUrl := "q",
        now := 0, rand := "r" }
      (((200 : ℚ) - 80) / 200 * 100)
      (by norm_num [validateFile, allowedMimeTypes, ALLOWED_FILE_TYPES]) ?_
    simp [compressImage, compressionRatioOf, compressDims, maxDimension,
      Except.toOption]

/-- C8: an authenticated invocation of `uploadFile` on a file that fails
validation terminates by THROWING the validation error (the returned event
list is empty: no `error`-status snapshot and no `onError` callback is ever
delivered), contradicting the policy that every failure is captured inside
the invocation and handed to the caller as a typed failure.  The sole caller
`handleFileSelect` invokes `uploadFile(file)` without `await` or `.catch`,
so this rejection leaves the pipeline boundary uncaught. -/
theorem validation_error_thrown :
    uploadFile (some "u") 10 ""
        { name := "doc.pdf", type := "application/pdf", size := 100 }
        { compress := { decodeOk := true, width := 10, height := 10,
                        ctxOk := true, blobSize := some 10 },
          uploadError := none, uploadPath := "p", publicUrl := "q",
          now := 0, rand := "r" }
      = ([], .threw invalidTypeMessage) := rfl

/-- C9: with no authenticated user, each upload entry point terminates
immediately with its authentication error (the thrown
`User not authenticated` in `EnhancedImageUpload`, the login-required error
state in `RobustImageUpload`, HTTP 401 on the server route), for every file
and environment, and emits no events — no validation, no compression and no
object-store call happens. -/
theorem auth_gate :
    (∀ maxSize pathArg file env,
      uploadFile none maxSize pathArg file env
        = ([], .threw "User not authenticated")) ∧
    (∀ maxSizeMB bucket file env,
      handleFileUpload none maxSizeMB bucket file env
        = ([], some "You must be logged in to upload images")) ∧
    (∀ bucket file env, uploadRoute none bucket file env = ([], 401)) :=
  ⟨fun _ _ _ _ => rfl, fun _ _ _ _ => rfl, fun _ _ _ => rfl⟩

/-- C10: the delete-file route issues a `remove` call only for file names
that begin with the requesting user's id followed by `/`; any supplied file
name without that prefix yields a 403 response and no delete call. -/
theorem delete_scope (uid fileName bucket : String) (rf : Bool) :
    (fileName ≠ "" → bucket ≠ "" →
      jsStartsWith fileName (uid ++ "/") = false →
      deleteFileRoute (some uid) fileName bucket rf = (none, 403)) ∧
    (∀ k, (deleteFileRoute (some uid) fileName bucket rf).1 = some k →
      jsStartsWith fileName (uid ++ "/") = true ∧ k = fileName) := by
  constructor
  · intro h1 h2 h3
    simp [deleteFileRoute, h1, h2, h3]
  · intro k hk
    by_cases hfb : fileName = "" ∨ bucket = ""
    · simp [deleteFileRoute, hfb] at hk
    · by_cases hsw : jsStartsWith fileName (uid ++ "/") = true
      · simp [deleteFileRoute, hfb, hsw] at hk
        exact ⟨hsw, hk.symm⟩
      · have hsw' : jsStartsWith fileName (uid ++ "/") = false := by
          simpa using hsw
        simp [deleteFileRoute, hfb, hsw'] at hk

theorem delete_scope_witness :
    deleteFileRoute (some "u") "v/pic.png" "recipes" false = (none, 403) ∧
    jsStartsWith "v/pic.png" ("u" ++ "/") = false :=
  ⟨(delete_scope "u" "v/pic.png" "recipes" false).1 (by decide) (by decide)
      (by decide),
    by decide⟩

end ACWhisk
